import Mathlib

/-!
# Crosshair overlay — verification of the specification against the code

Shallow embedding of the core of the `crosshair-overlay` repository
(`src/crosshair_overlay.py`, `src/linux/crosshair_overlay.py`,
`src/windows/crosshair_overlay.py`) and proofs settling the frozen claims.

Conventions used throughout:
* Python numbers are modelled as rationals (`ℚ`); the claims under scrutiny
  only involve arithmetic that is exact on the inputs concerned.
* `math.hypot`, `math.atan2/cos/sin` and text measurement are external,
  irrational-valued calls; they are passed to the embedded functions as
  explicit function parameters, so that each theorem quantifies over every
  possible behaviour of those collaborators (or instantiates them at inputs
  where their value is exact, e.g. `hypot 100 0 = 100`).
* Python `int(x)` (truncation toward zero) is `pyInt`.
-/

namespace Crosshair

/-- Python `int(q)`: truncation toward zero. -/
def pyInt (q : ℚ) : ℤ := if 0 ≤ q then ⌊q⌋ else ⌈q⌉

/-! ## JSON values and `load_config`

From `src/linux/crosshair_overlay.py` lines 22–58 (the root
`src/crosshair_overlay.py` lines 44–53 has the identical merge logic).
`load_config` reads the config file; a missing file or malformed JSON is
caught and the defaults returned; otherwise the parsed value `cfg` is merged
into a copy of `DEFAULTS` via `merged.update(cfg)`.  Python's `dict.update`
accepts a mapping, or any iterable of key/value pairs; anything else raises,
and the exception is *not* caught by `load_config`. -/

/-- A parsed JSON value (the possible results of `json.load`). -/
inductive Json : Type where
  | null : Json
  | bool (b : Bool) : Json
  | num (q : ℚ) : Json
  | str (s : String) : Json
  | arr (xs : List Json) : Json
  | obj (kvs : List (String × Json)) : Json

/-- A hashable Python value usable as a `dict` key.  JSON arrays and objects
decode to Python lists and dicts, which are unhashable; the remaining JSON
scalars are hashable. -/
inductive JKey : Type where
  | null : JKey
  | bool (b : Bool) : JKey
  | num (q : ℚ) : JKey
  | str (s : String) : JKey
deriving DecidableEq

/-- The hashability check performed by `d[k] = v`: scalars are hashable,
lists/dicts raise `TypeError`. -/
def Json.asKey : Json → Option JKey
  | .null => some .null
  | .bool b => some (.bool b)
  | .num q => some (.num q)
  | .str s => some (.str s)
  | .arr _ => none
  | .obj _ => none

/-- A Python dict with insertion order, as produced by `dict(DEFAULTS)` and
mutated by `update`. -/
abbrev PyDict := List (JKey × Json)

/-- `d[k] = v`: overwrite in place if the key exists (keeping its position),
append otherwise. -/
def setKey : PyDict → JKey → Json → PyDict
  | [], k, v => [(k, v)]
  | (k', v') :: rest, k, v =>
    if k' = k then (k', v) :: rest else (k', v') :: setKey rest k v

/-- First (and, for dicts built by `setKey`, only) binding of a key. -/
def getKey : PyDict → JKey → Option Json
  | [], _ => none
  | (k', v') :: rest, k => if k' = k then some v' else getKey rest k

/-- Iterating a Python value: strings yield their characters (as length-1
strings), lists their elements, dicts their keys; numbers, booleans and
`None` are not iterable (`TypeError`). -/
def pyIter : Json → Option (List Json)
  | .str s => some (s.data.map fun c => .str (String.mk [c]))
  | .arr xs => some xs
  | .obj kvs => some (kvs.map fun kv => .str kv.1)
  | _ => none

/-- Unpacking one element of the iterable passed to `dict.update` as a
`(key, value)` pair: the element must itself be iterable with exactly two
items, and the key must be hashable; otherwise `update` (or the subsequent
assignment) raises. -/
def Json.asPair (j : Json) : Option (JKey × Json) := do
  let elems ← pyIter j
  match elems with
  | [k, v] => do
    let kk ← k.asKey
    pure (kk, v)
  | _ => none

/-- Unpack every element of the iterable as a key/value pair, failing (as
`dict.update` does) on the first element that is not a pair. -/
def asPairs : List Json → Option (List (JKey × Json))
  | [] => some []
  | x :: rest => do
    let p ← x.asPair
    let ps ← asPairs rest
    pure (p :: ps)

/-- `d.update(j)`.  A mapping argument merges its (string) keys; any other
argument is treated as an iterable of key/value pairs.  `none` models an
uncaught exception. -/
def dictUpdate (d : PyDict) (j : Json) : Option PyDict :=
  match j with
  | .obj kvs => some (kvs.foldl (fun acc kv => setKey acc (.str kv.1) kv.2) d)
  | other => do
    let elems ← pyIter other
    let pairs ← asPairs elems
    pure (pairs.foldl (fun acc kv => setKey acc kv.1 kv.2) d)

/-- The `DEFAULTS` dict of `src/linux/crosshair_overlay.py` (lines 22–46). -/
def DEFAULTS : PyDict :=
  [ (.str "line_color", .arr [.num (9/10), .num (9/10), .num (9/10)]),
    (.str "line_width", .num 1),
    (.str "line_opacity", .num (35/100)),
    (.str "crosshair_fullscreen", .bool true),
    (.str "crosshair_radius", .num 100),
    (.str "dot_enabled", .bool true),
    (.str "dot_radius", .num 3),
    (.str "dot_fill_color", .arr [.num 1, .num (3/10), .num (3/10)]),
    (.str "dot_fill_opacity", .num (6/10)),
    (.str "dot_stroke_color", .arr [.num 1, .num 1, .num 1]),
    (.str "dot_stroke_opacity", .num 0),
    (.str "dot_stroke_width", .num 1),
    (.str "tick_enabled", .bool false),
    (.str "tick_color", .arr [.num (9/10), .num (9/10), .num (9/10)]),
    (.str "tick_opacity", .num (3/10)),
    (.str "tick_spacing", .num 10),
    (.str "tick_major_every", .num 5),
    (.str "tick_minor_length", .num 3),
    (.str "tick_major_length", .num 6),
    (.str "tick_labels", .bool false),
    (.str "tick_label_color", .arr [.num (9/10), .num (9/10), .num (9/10)]),
    (.str "tick_label_opacity", .num (5/10)),
    (.str "tick_label_size", .num 9) ]

/-- Outcome of attempting to read and parse the config file. -/
inductive ReadResult : Type where
  | missing : ReadResult
  | malformed : ReadResult
  | parsed (j : Json) : ReadResult

/-- `load_config()`: on `FileNotFoundError` or `json.JSONDecodeError` return
a copy of the defaults; otherwise merge the parsed value into a copy of the
defaults with `dict.update`.  `none` models an uncaught exception escaping
`load_config`. -/
def loadConfig : ReadResult → Option PyDict
  | .missing => some DEFAULTS
  | .malformed => some DEFAULTS
  | .parsed j => dictUpdate DEFAULTS j

/-- Last binding of string key `s` in a raw JSON object (later duplicates
win, as in Python's `json.load`). -/
def fileLookup : List (String × Json) → String → Option Json
  | [], _ => none
  | (k, v) :: rest, s =>
    match fileLookup rest s with
    | some w => some w
    | none => if k = s then some v else none

/-! ## Geometry engine: measurement ticks and angle snapping -/

/-- The measurement-tick computation inlined in `_draw_measurement`
(`src/linux/crosshair_overlay.py` lines 429–435, identically
`src/windows/crosshair_overlay.py` lines 857–862):
`steps = int(dist / spacing)` and, for `i = 1..steps`, a tick at distance
`i * spacing`, major iff `major_every > 0 and i % major_every == 0`. -/
def measurementTicks (dist spacing : ℚ) (majorEvery : ℤ) : List (ℚ × Bool) :=
  let steps := (pyInt (dist / spacing)).toNat
  (List.range steps).map fun k =>
    let i : ℕ := k + 1
    ((i : ℚ) * spacing, decide (0 < majorEvery) && decide ((i : ℤ) % majorEvery = 0))

/-- The type of the non-degenerate branch of `_snap_endpoint`
(`atan2`/`round`/`cos`/`sin` reconstruction), an external floating-point
computation passed in as a parameter. -/
abbrev SnapFun := ℚ → ℚ → ℚ → ℚ → ℚ × ℚ

/-- `_snap_endpoint(x1, y1, x2, y2)` (`src/linux/crosshair_overlay.py` lines
232–241, identically `src/windows/crosshair_overlay.py` lines 556–565): if
the distance from the origin is below 1 the point is returned unchanged;
otherwise the angle is snapped to 15° and the point reconstructed at the same
distance (the `reconstruct` parameter).  The guard `math.hypot(dx, dy) < 1`
is expressed as `dx^2 + dy^2 < 1`, equivalent since `hypot` is the
nonnegative square root. -/
def snapEndpoint (reconstruct : SnapFun) (x1 y1 x2 y2 : ℚ) : ℚ × ℚ :=
  if (x2 - x1) ^ 2 + (y2 - y1) ^ 2 < 1 then (x2, y2)
  else reconstruct x1 y1 x2 y2

/-! ## Lemmas about `setKey`/`getKey` and the `update` merge -/

theorem getKey_setKey (d : PyDict) (k k' : JKey) (v : Json) :
    getKey (setKey d k v) k' = if k' = k then some v else getKey d k' := by
  induction d with
  | nil =>
    simp only [setKey, getKey]
    by_cases h : k' = k
    · simp [h]
    · simp [h, show ¬ k = k' from fun hh => h hh.symm]
  | cons kv rest ih =>
    obtain ⟨k0, v0⟩ := kv
    simp only [setKey]
    by_cases h0 : k0 = k
    · subst h0
      simp only [if_pos rfl, getKey]
      by_cases h' : k' = k0
      · simp [h']
      · simp [h', show ¬ k0 = k' from fun hh => h' hh.symm]
    · simp only [if_neg h0, getKey, ih]
      by_cases h' : k0 = k'
      · subst h'
        simp [show ¬ k0 = k from h0]
      · simp [h']

theorem getKey_mergeObj (kvs : List (String × Json)) (d : PyDict) (s : String) :
    getKey (kvs.foldl (fun acc kv => setKey acc (.str kv.1) kv.2) d) (.str s) =
      match fileLookup kvs s with
      | some v => some v
      | none => getKey d (.str s) := by
  induction kvs generalizing d with
  | nil => simp [fileLookup]
  | cons kv rest ih =>
    obtain ⟨k, v⟩ := kv
    simp only [List.foldl_cons, fileLookup, ih]
    cases h : fileLookup rest s with
    | some w => simp
    | none =>
      simp only [getKey_setKey]
      by_cases hk : k = s
      · subst hk; simp
      · have : ¬ (JKey.str s = JKey.str k) := by
          simp [JKey.str.injEq]; exact fun h' => hk h'.symm
        simp [hk, this]

/-- If some element of the list cannot be unpacked as a key/value pair,
`dict.update` raises. -/
theorem asPairs_eq_none {xs : List Json} (h : ∃ x ∈ xs, x.asPair = none) :
    asPairs xs = none := by
  induction xs with
  | nil => simp at h
  | cons x rest ih =>
    obtain ⟨y, hy, hnone⟩ := h
    rcases List.mem_cons.mp hy with h1 | h1
    · subst h1
      simp [asPairs, hnone]
    · cases hx : x.asPair with
      | none => simp [asPairs, hx]
      | some p => simp [asPairs, hx, ih ⟨y, h1, hnone⟩]

/-! ## Claim theorems: config loading (C6, C10) -/

/-- C6: `load_config` returns the built-in defaults merged with the persisted
JSON object — every key present in the file overrides the default (unknown
keys preserved, later duplicates winning as in `json.load`), every key absent
from the file is filled from the defaults — and when the file is missing or
its contents are malformed JSON it returns exactly the defaults without
raising. -/
theorem loadConfig_merges_defaults :
    loadConfig .missing = some DEFAULTS ∧
    loadConfig .malformed = some DEFAULTS ∧
    ∀ kvs : List (String × Json),
      ∃ d, loadConfig (.parsed (.obj kvs)) = some d ∧
        ∀ s : String, getKey d (.str s) =
          match fileLookup kvs s with
          | some v => some v
          | none => getKey DEFAULTS (.str s) := by
  refine ⟨rfl, rfl, fun kvs => ⟨_, rfl, fun s => ?_⟩⟩
  simpa [loadConfig, dictUpdate] using getKey_mergeObj kvs DEFAULTS s

/-- C10 counterexample: the config file `[["k", 1]]` holds valid JSON whose
top-level value is a list, not an object, yet `load_config` does not raise:
`dict.update` accepts a list of key/value pairs, so the pair `("k", 1)` is
merged into the defaults. -/
theorem loadConfig_pairList_does_not_raise :
    ∃ d, loadConfig (.parsed (.arr [.arr [.str "k", .num 1]])) = some d ∧
      getKey d (.str "k") = some (.num 1) := by
  refine ⟨setKey DEFAULTS (.str "k") (.num 1), rfl, ?_⟩
  rw [getKey_setKey]
  simp

/-- C10 amended: with only `FileNotFoundError` and `json.JSONDecodeError`
handled, `load_config` raises on a top-level number, boolean or `null`
(not iterable), and on any string or array containing an element that is not
a two-item sequence with a hashable key; but an empty array or empty string
is a no-op merge returning the defaults, and an array of key/value pairs is
merged like an object rather than raising. -/
theorem loadConfig_nonobject_behaviour :
    (∀ q : ℚ, loadConfig (.parsed (.num q)) = none) ∧
    (∀ b : Bool, loadConfig (.parsed (.bool b)) = none) ∧
    loadConfig (.parsed .null) = none ∧
    (∀ s : String, s ≠ "" → loadConfig (.parsed (.str s)) = none) ∧
    loadConfig (.parsed (.str "")) = some DEFAULTS ∧
    loadConfig (.parsed (.arr [])) = some DEFAULTS ∧
    (∀ xs : List Json, (∃ x ∈ xs, x.asPair = none) →
      loadConfig (.parsed (.arr xs)) = none) := by
  refine ⟨fun q => rfl, fun b => rfl, rfl, fun s hs => ?_, rfl, rfl, fun xs hxs => ?_⟩
  · obtain ⟨c, cs, hdata⟩ : ∃ c cs, s.data = c :: cs := by
      cases hd : s.data with
      | nil => exact absurd (by cases s; simp_all) hs
      | cons c cs => exact ⟨c, cs, rfl⟩
    have hmm : asPairs (s.data.map fun c => Json.str (String.mk [c])) = none := by
      apply asPairs_eq_none
      exact ⟨Json.str (String.mk [c]), by simp [hdata], rfl⟩
    simp [loadConfig, dictUpdate, pyIter, Option.bind, hmm]
  · have hmm := asPairs_eq_none hxs
    simp [loadConfig, dictUpdate, pyIter, Option.bind, hmm]

/-- C10 amended, witness: a concrete non-empty string and a concrete array
with a non-pair element both make `load_config` raise. -/
theorem loadConfig_nonobject_behaviour_witness :
    ("x" ≠ "" ∧ loadConfig (.parsed (.str "x")) = none) ∧
    ((∃ x ∈ [Json.num 2], x.asPair = none) ∧
      loadConfig (.parsed (.arr [Json.num 2])) = none) := by
  constructor
  · exact ⟨by decide, loadConfig_nonobject_behaviour.2.2.2.1 "x" (by decide)⟩
  · exact ⟨⟨Json.num 2, by simp, rfl⟩,
      loadConfig_nonobject_behaviour.2.2.2.2.2.2 [Json.num 2] ⟨Json.num 2, by simp, rfl⟩⟩

/-! ## Claim theorems: measurement ticks (C1) -/

/-- C1 counterexample: for a measurement of length 100 with spacing 25 and
`tick_major_every = 4`, the tick at distance 100 is the 4th step and
`4 % 4 == 0`, so the code marks it major — the claim's "is not major" is
false. -/
theorem measurementTicks_tick100_is_major :
    ((100 : ℚ), true) ∈ measurementTicks 100 25 4 ∧
    ((100 : ℚ), false) ∉ measurementTicks 100 25 4 := by
  have h : measurementTicks 100 25 4 =
      [(25, false), (50, false), (75, false), (100, true)] := by
    norm_num [measurementTicks, pyInt, show Int.toNat 4 = 4 from rfl, List.range_succ]
  rw [h]
  constructor
  · simp
  · intro hmem
    simp only [List.mem_cons, List.not_mem_nil, Prod.mk.injEq] at hmem
    rcases hmem with h1 | h1 | h1 | h1 | h1 <;> norm_num at h1

/-- C1 amended: the measurement-tick computation for length 100, spacing 25,
`major_every = 4` emits ticks at distances 25, 50, 75 and 100, the first
three minor and the tick at distance 100 major (it is the 4th step and
`4 % 4 == 0`). -/
theorem measurementTicks_scenario :
    measurementTicks 100 25 4 = [(25, false), (50, false), (75, false), (100, true)] := by
  norm_num [measurementTicks, pyInt, show Int.toNat 4 = 4 from rfl, List.range_succ]

/-! ## Claim theorems: angle snapping (C9) -/

/-- C9: for every origin and point at distance less than 1 from it, angle
snapping returns the point unchanged, whatever the (external, floating-point)
angle reconstruction would compute — and hence snapping again still returns
the same point. -/
theorem snapEndpoint_degenerate (r : SnapFun) (x1 y1 x2 y2 : ℚ)
    (h : (x2 - x1) ^ 2 + (y2 - y1) ^ 2 < 1) :
    snapEndpoint r x1 y1 x2 y2 = (x2, y2) ∧
    snapEndpoint r x1 y1 (snapEndpoint r x1 y1 x2 y2).1
      (snapEndpoint r x1 y1 x2 y2).2 = (x2, y2) := by
  have h1 : snapEndpoint r x1 y1 x2 y2 = (x2, y2) := by
    unfold snapEndpoint
    exact if_pos h
  exact ⟨h1, by rw [h1]; exact h1⟩

/-- C9 witness: the point `(1/2, 1/4)` is at squared distance `5/16 < 1` from
the origin `(0, 0)` and is returned unchanged, even under a reconstruction
function that would move it. -/
theorem snapEndpoint_degenerate_witness :
    ((1/2 : ℚ) - 0) ^ 2 + ((1/4 : ℚ) - 0) ^ 2 < 1 ∧
    snapEndpoint (fun _ _ _ _ => (99, 99)) 0 0 (1/2) (1/4) = (1/2, 1/4) := by
  refine ⟨by norm_num, ?_⟩
  exact (snapEndpoint_degenerate (fun _ _ _ _ => (99, 99)) 0 0 (1/2) (1/4) (by norm_num)).1

/-! ## Overlay state machine — Linux variant

From `CrosshairOverlay` in `src/linux/crosshair_overlay.py`: `__init__`
(lines 151–158), `set_mode` (197–221), `on_button_press` (223–230),
`on_button_release` (243–252), `on_motion_notify` (254–262), `on_key_press`
(264–268), `poll_pointer` (270–279).  Calls into GTK/GDK (click-through
region, focus, cursor, redraw, the mode-changed callback) are recorded as
`Effect`s. -/

/-- Overlay interaction mode. -/
inductive Mode : Type where
  | crosshair : Mode
  | measure : Mode
deriving DecidableEq

/-- Side effects the handlers request from the windowing backend. -/
inductive Effect : Type where
  | disableClickThrough : Effect
  | enableClickThrough : Effect
  | setAcceptFocus (b : Bool) : Effect
  | present : Effect
  | setCursor (crosshairCursor : Bool) : Effect
  | focusWindow : Effect
  | queueDraw : Effect
  | modeChanged (m : Mode) : Effect
deriving DecidableEq

/-- Mutable state of the Linux `CrosshairOverlay` window. -/
structure LState : Type where
  mode : Mode
  measureStart : Option (ℚ × ℚ)
  measureEnd : Option (ℚ × ℚ)
  measuring : Bool
  acceptFocus : Bool
  clickThrough : Bool
  mx : ℚ
  my : ℚ

/-- State after `__init__` (with the initial pointer position, which the code
sets to the screen centre) and after `main` enabled click-through. -/
def initState (mx my : ℚ) : LState :=
  { mode := .crosshair, measureStart := none, measureEnd := none,
    measuring := false, acceptFocus := false, clickThrough := true,
    mx := mx, my := my }

/-- `set_mode(mode)`: no-op when the mode is unchanged; entering `measure`
disables click-through, accepts focus, presents, sets the crosshair cursor
and focuses; leaving it clears the measurement state, restores click-through
and the cursor.  Both paths queue a redraw and fire the mode-changed
callback. -/
def setModeL (st : LState) (m : Mode) : LState × List Effect :=
  if st.mode = m then (st, [])
  else
    match m with
    | .measure =>
      ({ st with mode := m, acceptFocus := true, clickThrough := false },
       [.disableClickThrough, .setAcceptFocus true, .present, .setCursor true,
        .focusWindow, .queueDraw, .modeChanged m])
    | .crosshair =>
      ({ st with mode := m, measureStart := none, measureEnd := none,
                 measuring := false, acceptFocus := false, clickThrough := true },
       [.setAcceptFocus false, .enableClickThrough, .setCursor false,
        .queueDraw, .modeChanged m])

/-- GTK events delivered to the overlay window. -/
inductive LEvent : Type where
  | setMode (m : Mode) : LEvent
  | buttonPress (x y : ℚ) (button : ℕ) : LEvent
  | buttonRelease (x y : ℚ) (button : ℕ) (ctrl : Bool) : LEvent
  | motion (x y : ℚ) (ctrl : Bool) : LEvent
  | keyEscape : LEvent
  | pollPointer (x y : ℚ) : LEvent

/-- The endpoint recorded by `on_button_release`/`on_motion_notify`: snapped
when Ctrl is held and a start point exists, raw otherwise. -/
def dragEndpoint (r : SnapFun) (start : Option (ℚ × ℚ)) (x y : ℚ) (ctrl : Bool) : ℚ × ℚ :=
  match start with
  | some (sx, sy) => if ctrl then snapEndpoint r sx sy x y else (x, y)
  | none => (x, y)

/-- One event-handler dispatch of the Linux overlay. -/
def stepL (r : SnapFun) (st : LState) (e : LEvent) : LState × List Effect :=
  match e with
  | .setMode m => setModeL st m
  | .buttonPress x y b =>
    if st.mode = .measure ∧ b = 1 then
      ({ st with measureStart := some (x, y), measureEnd := some (x, y),
                 measuring := true }, [.queueDraw])
    else (st, [])
  | .buttonRelease x y b ctrl =>
    if st.mode = .measure ∧ b = 1 then
      ({ st with measureEnd := some (dragEndpoint r st.measureStart x y ctrl),
                 measuring := false }, [.queueDraw])
    else (st, [])
  | .motion x y ctrl =>
    if st.mode = .measure ∧ st.measuring = true then
      ({ st with measureEnd := some (dragEndpoint r st.measureStart x y ctrl) },
       [.queueDraw])
    else (st, [])
  | .keyEscape =>
    if st.mode = .measure then setModeL st .crosshair else (st, [])
  | .pollPointer x y =>
    if st.mode = .crosshair then
      if x ≠ st.mx ∨ y ≠ st.my then ({ st with mx := x, my := y }, [.queueDraw])
      else (st, [])
    else (st, [])

/-- States reachable from startup under arbitrary event sequences. -/
inductive ReachableL (r : SnapFun) : LState → Prop where
  | init (mx my : ℚ) : ReachableL r (initState mx my)
  | step {st : LState} (h : ReachableL r st) (e : LEvent) :
      ReachableL r (stepL r st e).1

/-- The crosshair-mode invariant: no measurement state is retained outside
measure mode. -/
def measureCleared (st : LState) : Prop :=
  st.mode = .crosshair →
    st.measureStart = none ∧ st.measureEnd = none ∧ st.measuring = false

theorem measureCleared_setModeL {st : LState} (h : measureCleared st) (m : Mode) :
    measureCleared (setModeL st m).1 := by
  unfold setModeL
  by_cases he : st.mode = m
  · simpa [he] using h
  · rw [if_neg he]
    cases m with
    | measure => intro hc; simp at hc
    | crosshair => intro _; simp

theorem measureCleared_stepL (r : SnapFun) {st : LState}
    (h : measureCleared st) (e : LEvent) : measureCleared (stepL r st e).1 := by
  cases e with
  | setMode m => exact measureCleared_setModeL h m
  | buttonPress x y b =>
    simp only [stepL]
    split_ifs with hc
    · intro hmode; rw [hc.1] at hmode; simp at hmode
    · exact h
  | buttonRelease x y b ctrl =>
    simp only [stepL]
    split_ifs with hc
    · intro hmode; rw [hc.1] at hmode; simp at hmode
    · exact h
  | motion x y ctrl =>
    simp only [stepL]
    split_ifs with hc
    · intro hmode; rw [hc.1] at hmode; simp at hmode
    · exact h
  | keyEscape =>
    simp only [stepL]
    split_ifs with hc
    · exact measureCleared_setModeL h .crosshair
    · exact h
  | pollPointer x y =>
    simp only [stepL]
    split_ifs with hc hne
    · intro _
      exact h hc
    · exact h
    · exact h

theorem measureCleared_reachable {r : SnapFun} {st : LState}
    (h : ReachableL r st) : measureCleared st := by
  induction h with
  | init mx my => intro _; exact ⟨rfl, rfl, rfl⟩
  | step hr e ih => exact measureCleared_stepL r ih e

/-! ## Claim theorems: measurement state cleared in crosshair mode (C5) -/

/-- C5: in every reachable overlay state in `crosshair` mode both measurement
endpoints are `None` and `measuring` is false; consequently, immediately
after a `set_mode("measure")` transition out of such a state the mode is
`measure`, the endpoints are still cleared and `measuring` is still false. -/
theorem crosshair_measure_state_cleared (r : SnapFun) (st : LState)
    (h : ReachableL r st) (hm : st.mode = .crosshair) :
    (st.measureStart = none ∧ st.measureEnd = none ∧ st.measuring = false) ∧
    ((stepL r st (.setMode .measure)).1.mode = .measure ∧
      (stepL r st (.setMode .measure)).1.measureStart = none ∧
      (stepL r st (.setMode .measure)).1.measureEnd = none ∧
      (stepL r st (.setMode .measure)).1.measuring = false) := by
  have hc := measureCleared_reachable h hm
  refine ⟨hc, ?_⟩
  simp only [stepL, setModeL]
  rw [hm]
  simp only [show (Mode.crosshair = Mode.measure) = False by simp, if_false]
  simp [hc.1, hc.2.1, hc.2.2]

/-- C5 witness: the initial state is reachable, is in crosshair mode, and
entering measure mode from it leaves the measurement state cleared. -/
theorem crosshair_measure_state_cleared_witness :
    ((initState 0 0).measureStart = none ∧ (initState 0 0).measureEnd = none ∧
      (initState 0 0).measuring = false) ∧
    ((stepL (fun _ _ x y => (x, y)) (initState 0 0) (.setMode .measure)).1.mode = .measure ∧
      (stepL (fun _ _ x y => (x, y)) (initState 0 0) (.setMode .measure)).1.measureStart = none ∧
      (stepL (fun _ _ x y => (x, y)) (initState 0 0) (.setMode .measure)).1.measureEnd = none ∧
      (stepL (fun _ _ x y => (x, y)) (initState 0 0) (.setMode .measure)).1.measuring = false) :=
  crosshair_measure_state_cleared (fun _ _ x y => (x, y)) (initState 0 0)
    (ReachableL.init 0 0) rfl

/-! ## Claim theorems: `set_mode` idempotence (C8) -/

/-- C8: calling `set_mode` with the current mode is a no-op — the state is
unchanged and no effects (focus request, state reset, redraw, mode-changed
notification) are issued; hence a second consecutive `set_mode` with the same
argument leaves the state of the first call untouched and fires nothing. -/
theorem setMode_idempotent (st : LState) (m : Mode) :
    (st.mode = m → setModeL st m = (st, [])) ∧
    setModeL (setModeL st m).1 m = ((setModeL st m).1, []) := by
  have noop : ∀ s : LState, s.mode = m → setModeL s m = (s, []) := by
    intro s hs
    simp [setModeL, hs]
  have hmode : (setModeL st m).1.mode = m := by
    unfold setModeL
    by_cases he : st.mode = m
    · simp [he]
    · cases m <;> simp [he]
  exact ⟨noop st, noop _ hmode⟩

/-- C8 witness: at the initial state (mode `crosshair`), `set_mode("crosshair")`
is a no-op, and a repeated `set_mode("measure")` after a first one is a no-op. -/
theorem setMode_idempotent_witness :
    setModeL (initState 0 0) .crosshair = (initState 0 0, []) ∧
    setModeL (setModeL (initState 0 0) .measure).1 .measure =
      ((setModeL (initState 0 0) .measure).1, []) :=
  ⟨(setMode_idempotent (initState 0 0) .crosshair).1 rfl,
    (setMode_idempotent (initState 0 0) .measure).2⟩

/-! ## Overlay state machine — Windows variant (pointer capture)

From `CrosshairOverlay` in `src/windows/crosshair_overlay.py`: `__init__`
(lines 479–524), `set_mode` (531–554), `_wndproc` (567–639).  `captured`
records whether the window holds the Win32 mouse capture (`SetCapture` /
`ReleaseCapture`); `clickThrough` records the `WS_EX_TRANSPARENT` style
bit. -/

/-- Mutable state of the Windows overlay window. -/
structure WState : Type where
  mode : Mode
  measureStart : Option (ℚ × ℚ)
  measureEnd : Option (ℚ × ℚ)
  measuring : Bool
  captured : Bool
  clickThrough : Bool
  mx : ℚ
  my : ℚ

/-- State after `__init__` (no capture held, click-through styles set). -/
def initW : WState :=
  { mode := .crosshair, measureStart := none, measureEnd := none,
    measuring := false, captured := false, clickThrough := true,
    mx := 0, my := 0 }

/-- Windows `set_mode`: entering `measure` drops the click-through styles;
leaving it clears the measurement state and restores them.  Note that
neither branch touches the mouse capture. -/
def setModeW (st : WState) (m : Mode) : WState :=
  if st.mode = m then st
  else
    match m with
    | .measure => { st with mode := m, clickThrough := false }
    | .crosshair =>
      { st with mode := m, measureStart := none, measureEnd := none,
                measuring := false, clickThrough := true }

/-- Window messages handled by `_wndproc`. -/
inductive WMsg : Type where
  | timer (x y : ℚ) : WMsg
  | lbuttonDown (x y : ℚ) : WMsg
  | mouseMove (x y : ℚ) (ctrl : Bool) : WMsg
  | lbuttonUp (x y : ℚ) (ctrl : Bool) : WMsg
  | keyDown (escape : Bool) : WMsg
  | appSettings : WMsg
  | appMode (toMeasure : Bool) : WMsg

/-- One `_wndproc` dispatch.  `WM_LBUTTONDOWN` in measure mode calls
`SetCapture`; `WM_LBUTTONUP` while measuring calls `ReleaseCapture`; no
other path touches the capture. -/
def stepW (r : SnapFun) (st : WState) (msg : WMsg) : WState :=
  match msg with
  | .timer x y =>
    if st.mode = .crosshair ∧ (x ≠ st.mx ∨ y ≠ st.my) then
      { st with mx := x, my := y }
    else st
  | .lbuttonDown x y =>
    if st.mode = .measure then
      { st with measureStart := some (x, y), measureEnd := some (x, y),
                measuring := true, captured := true }
    else st
  | .mouseMove x y ctrl =>
    if st.mode = .measure ∧ st.measuring = true then
      { st with measureEnd := some (dragEndpoint r st.measureStart x y ctrl) }
    else st
  | .lbuttonUp x y ctrl =>
    if st.mode = .measure ∧ st.measuring = true then
      { st with measureEnd := some (dragEndpoint r st.measureStart x y ctrl),
                measuring := false, captured := false }
    else st
  | .keyDown escape =>
    if escape = true ∧ st.mode = .measure then setModeW st .crosshair else st
  | .appSettings => st
  | .appMode toMeasure =>
    setModeW st (if toMeasure then .measure else .crosshair)

/-! ## Claim theorems: pointer capture release (C2) -/

/-- C2 (code bug witness): entering measure mode, pressing the left button
(which acquires pointer capture) and then pressing Escape exits the drag via
`set_mode("crosshair")` — which never calls `ReleaseCapture`.  The resulting
state is out of the drag (crosshair mode, not measuring) yet still holds the
pointer capture, contradicting the required release-on-every-exit-path
discipline. -/
theorem escape_leaks_pointer_capture :
    (stepW (fun _ _ x y => (x, y))
      (stepW (fun _ _ x y => (x, y))
        (stepW (fun _ _ x y => (x, y)) initW (.appMode true))
        (.lbuttonDown 10 10))
      (.keyDown true)).mode = .crosshair ∧
    (stepW (fun _ _ x y => (x, y))
      (stepW (fun _ _ x y => (x, y))
        (stepW (fun _ _ x y => (x, y)) initW (.appMode true))
        (.lbuttonDown 10 10))
      (.keyDown true)).measuring = false ∧
    (stepW (fun _ _ x y => (x, y))
      (stepW (fun _ _ x y => (x, y))
        (stepW (fun _ _ x y => (x, y)) initW (.appMode true))
        (.lbuttonDown 10 10))
      (.keyDown true)).captured = true := by
  refine ⟨?_, ?_, ?_⟩ <;> rfl

/-! ## Settings-save debouncing

From `SettingsWindow` in `src/linux/crosshair_overlay.py`: `_schedule_save`
(lines 831–834), `_do_save` (836–839), `on_delete` (841–847), and
`TrayIcon.on_quit` (942–943, `Gtk.main_quit()`).  The timer handle is
abstracted to the flag `pending`; `quitted` records that the GTK main loop
has exited (after which no scheduled timeout ever fires).  Every call into
GLib / the filesystem is appended to `log`. -/

/-- Timer and persistence operations requested by the settings window. -/
inductive SaveEffect (α : Type) : Type where
  | cancelTimer : SaveEffect α
  | startTimer (ms : ℕ) : SaveEffect α
  | saveConfig (c : α) : SaveEffect α

/-- State of the debounced-save component; `α` is the type of settings
snapshots. -/
structure SaveState (α : Type) : Type where
  cfg : α
  pending : Bool
  quitted : Bool
  log : List (SaveEffect α)

/-- Events reaching the debounced-save component: a settings mutation
(`on_change`/`load_favorite`, which ends in `_schedule_save`), the debounce
timeout firing (`_do_save`), the settings window being closed (`on_delete`),
and the tray-menu Quit (`Gtk.main_quit`). -/
inductive SaveEvent (α : Type) : Type where
  | change (c : α) : SaveEvent α
  | timerFire : SaveEvent α
  | windowClose : SaveEvent α
  | quitMenu : SaveEvent α

/-- One event dispatch of the debounced-save component. -/
def saveStep {α : Type} (st : SaveState α) : SaveEvent α → SaveState α
  | .change c =>
    { st with cfg := c, pending := true,
              log := st.log ++ (if st.pending then [.cancelTimer] else []) ++
                [.startTimer 500] }
  | .timerFire =>
    if st.pending = true ∧ st.quitted = false then
      { st with pending := false, log := st.log ++ [.saveConfig st.cfg] }
    else st
  | .windowClose =>
    if st.pending = true then
      { st with pending := false, log := st.log ++ [.cancelTimer, .saveConfig st.cfg] }
    else st
  | .quitMenu => { st with quitted := true }

/-- The configs actually written to disk, in order. -/
def savesOf {α : Type} : List (SaveEffect α) → List α
  | [] => []
  | .saveConfig c :: rest => c :: savesOf rest
  | .cancelTimer :: rest => savesOf rest
  | .startTimer _ :: rest => savesOf rest

/-- Run a sequence of events. -/
def runSave {α : Type} (st : SaveState α) (es : List (SaveEvent α)) : SaveState α :=
  es.foldl saveStep st

/-- State of the component at startup (`_save_timer = None`). -/
def initSave {α : Type} (c : α) : SaveState α :=
  { cfg := c, pending := false, quitted := false, log := [] }

theorem savesOf_append {α : Type} (l1 l2 : List (SaveEffect α)) :
    savesOf (l1 ++ l2) = savesOf l1 ++ savesOf l2 := by
  induction l1 with
  | nil => simp [savesOf]
  | cons e rest ih => cases e <;> simp [savesOf, ih]

/-- A burst of mutations updates `cfg` and (re)schedules without writing
anything to disk. -/
theorem runSave_changes {α : Type} (st : SaveState α) (c : α) (cs : List α) :
    (runSave st ((c :: cs).map .change)).cfg = (c :: cs).getLast (by simp) ∧
    (runSave st ((c :: cs).map .change)).pending = true ∧
    (runSave st ((c :: cs).map .change)).quitted = st.quitted ∧
    savesOf (runSave st ((c :: cs).map .change)).log = savesOf st.log := by
  induction cs generalizing st c with
  | nil =>
    refine ⟨rfl, rfl, rfl, ?_⟩
    simp [runSave, saveStep, savesOf_append]
    cases h : st.pending <;> simp [savesOf]
  | cons c2 rest ih =>
    have step1 : runSave st ((c :: c2 :: rest).map .change) =
        runSave (saveStep st (.change c)) ((c2 :: rest).map .change) := by
      simp [runSave]
    rw [step1]
    refine ⟨?_, ?_, ?_, ?_⟩
    · rw [(ih (saveStep st (.change c)) c2).1]
      simp [List.getLast]
    · exact (ih (saveStep st (.change c)) c2).2.1
    · rw [(ih (saveStep st (.change c)) c2).2.2.1]
      rfl
    · rw [(ih (saveStep st (.change c)) c2).2.2.2]
      simp [saveStep, savesOf_append]
      cases h : st.pending <;> simp [savesOf]

/-! ## Claim theorems: save debouncing (C3) -/

/-- C3 counterexample: after a settings edit, quitting from the tray menu
(`Gtk.main_quit`) neither cancels the outstanding 500 ms debounce timer nor
persists the settings — nothing has been written, the timer is still
nominally pending, and once the main loop has quit the timeout can never
write either.  This refutes the claim's "at clean shutdown … the settings
record is persisted immediately and synchronously". -/
theorem quit_drops_pending_save :
    (runSave (initSave (0 : ℕ)) [.change 42, .quitMenu]).pending = true ∧
    savesOf (runSave (initSave (0 : ℕ)) [.change 42, .quitMenu]).log = [] ∧
    saveStep (runSave (initSave (0 : ℕ)) [.change 42, .quitMenu]) .timerFire =
      runSave (initSave (0 : ℕ)) [.change 42, .quitMenu] :=
  ⟨rfl, rfl, rfl⟩

/-- C3 amended: every settings mutation (re)starts the 500 ms debounce timer
(cancelling any outstanding one), a burst of edits followed by the timeout
writes only the final settings state, and closing the settings window cancels
an outstanding timer and persists immediately and synchronously; quitting
from the tray menu, however, performs no cancellation and no flush, so edits
made within the last 500 ms before quitting are never written. -/
theorem debounce_save_behaviour {α : Type} :
    (∀ (st : SaveState α) (c : α), ∃ pre,
      (saveStep st (.change c)).pending = true ∧
      (saveStep st (.change c)).cfg = c ∧
      (saveStep st (.change c)).log = st.log ++ pre ++ [.startTimer 500] ∧
      (st.pending = true → pre = [.cancelTimer]) ∧
      (st.pending = false → pre = [])) ∧
    (∀ (st : SaveState α) (c : α) (cs : List α), st.quitted = false →
      savesOf (saveStep (runSave st ((c :: cs).map .change)) .timerFire).log =
        savesOf st.log ++ [(c :: cs).getLast (by simp)]) ∧
    (∀ st : SaveState α, st.pending = true →
      (saveStep st .windowClose).pending = false ∧
      savesOf (saveStep st .windowClose).log = savesOf st.log ++ [st.cfg]) ∧
    (∀ st : SaveState α,
      (saveStep st .quitMenu).pending = st.pending ∧
      savesOf (saveStep st .quitMenu).log = savesOf st.log) := by
  refine ⟨fun st c => ?_, fun st c cs hq => ?_, fun st hp => ?_, fun st => ⟨rfl, rfl⟩⟩
  · refine ⟨if st.pending then [.cancelTimer] else [], rfl, rfl, rfl, ?_, ?_⟩
    · intro h; simp [h]
    · intro h; simp [h]
  · have R := runSave_changes st c cs
    have hcond : (runSave st ((c :: cs).map .change)).pending = true ∧
        (runSave st ((c :: cs).map .change)).quitted = false :=
      ⟨R.2.1, by rw [R.2.2.1]; exact hq⟩
    simp only [saveStep, hcond.1, hcond.2, and_self, if_true]
    simp only [List.map_cons] at R
    simp only [List.map_cons, savesOf_append, savesOf]
    rw [R.2.2.2, R.1]
  · simp [saveStep, hp, savesOf_append, savesOf]

/-- A concrete settings-window state with an outstanding debounce timer. -/
def sampleSaveState : SaveState ℕ :=
  { cfg := 5, pending := true, quitted := false, log := [] }

/-- C3 amended, witness: a burst of two edits then the timeout writes only
the final value, and window-close with an outstanding timer persists the
current settings. -/
theorem debounce_save_behaviour_witness :
    ((initSave (0 : ℕ)).quitted = false ∧
      savesOf (saveStep (runSave (initSave (0 : ℕ)) (([1, 2] : List ℕ).map .change))
          .timerFire).log =
        savesOf (initSave (0 : ℕ)).log ++ [(((1 : ℕ) :: [2]).getLast (by simp))]) ∧
    (sampleSaveState.pending = true ∧
      (saveStep sampleSaveState .windowClose).pending = false ∧
      savesOf (saveStep sampleSaveState .windowClose).log =
        savesOf sampleSaveState.log ++ [sampleSaveState.cfg]) := by
  constructor
  · exact ⟨rfl, debounce_save_behaviour.2.1 (initSave 0) 1 [2] rfl⟩
  · exact ⟨rfl, (debounce_save_behaviour.2.2.1 sampleSaveState rfl).1,
      (debounce_save_behaviour.2.2.1 sampleSaveState rfl).2⟩

/-! ## Geometry engine: axis ticks

The tick loop of `_draw_crosshair` (`src/linux/crosshair_overlay.py` lines
332–352; the same loop at lines 187–207 of `src/crosshair_overlay.py` and
twice more for the vertical axis): starting at `i = 1`,
`while center + i*sp <= hi or center - i*sp >= lo`, draw a tick at each of
`center ± i*sp` that lies within `[lo, hi]`, major iff
`maj > 0 and i % maj == 0`.  The loop is embedded with explicit fuel; for
`sp > 0` the condition fails for every `i > axisBound`, so fuel
`axisBound + 1` reproduces the loop exactly (proved in
`axisTicksAux_eq`). -/

/-- One iteration body: the ticks emitted for index `i`. -/
def axisTickBody (center lo hi sp : ℚ) (maj : ℤ) (i : ℕ) : List (ℚ × Bool) :=
  let d : ℚ := i * sp
  let m : Bool := decide (0 < maj) && decide ((i : ℤ) % maj = 0)
  (if lo ≤ center + d ∧ center + d ≤ hi then [(center + d, m)] else []) ++
    (if lo ≤ center - d ∧ center - d ≤ hi then [(center - d, m)] else [])

/-- The `while` loop with explicit fuel, starting at index `i`. -/
def axisTicksAux (center lo hi sp : ℚ) (maj : ℤ) : ℕ → ℕ → List (ℚ × Bool)
  | 0, _ => []
  | fuel + 1, i =>
    if center + i * sp ≤ hi ∨ lo ≤ center - i * sp then
      axisTickBody center lo hi sp maj i ++
        axisTicksAux center lo hi sp maj fuel (i + 1)
    else []

/-- The largest index the loop can reach for positive spacing. -/
def axisBound (center lo hi sp : ℚ) : ℕ :=
  (⌊max (hi - center) (center - lo) / sp⌋).toNat

/-- The full axis-tick loop of the source. -/
def axisTicks (center lo hi sp : ℚ) (maj : ℤ) : List (ℚ × Bool) :=
  axisTicksAux center lo hi sp maj (axisBound center lo hi sp + 1) 1

/-- The spec's wording of the same computation: for `i = 1, 2, …` while the
loop condition holds (equivalently `i ≤ axisBound`, see `axisCond_iff`),
emit whichever of `center ± i*spacing` falls in `[lo, hi]`, major when
`major_every > 0 and i % major_every == 0`. -/
def axisTicksSpec (center lo hi sp : ℚ) (maj : ℤ) : List (ℚ × Bool) :=
  (List.range (axisBound center lo hi sp)).flatMap fun k =>
    let i := k + 1
    let m : Bool := decide (0 < maj) && decide ((i : ℤ) % maj = 0)
    [center + (i : ℚ) * sp, center - (i : ℚ) * sp].filterMap fun p =>
      if lo ≤ p ∧ p ≤ hi then some (p, m) else none

/-- For positive spacing the loop condition at index `i ≥ 1` holds exactly
when `i ≤ axisBound`. -/
theorem axisCond_iff (center lo hi sp : ℚ) (hsp : 0 < sp) (i : ℕ) (h1 : 1 ≤ i) :
    (center + i * sp ≤ hi ∨ lo ≤ center - i * sp) ↔
      i ≤ axisBound center lo hi sp := by
  have hiff : (center + i * sp ≤ hi ∨ lo ≤ center - i * sp) ↔
      (i : ℚ) ≤ max (hi - center) (center - lo) / sp := by
    rw [le_div_iff₀ hsp, le_max_iff]
    constructor
    · rintro (h | h)
      · left; linarith
      · right; linarith
    · rintro (h | h)
      · left; linarith
      · right; linarith
  rw [hiff]
  unfold axisBound
  constructor
  · intro h
    have hz : (i : ℤ) ≤ ⌊max (hi - center) (center - lo) / sp⌋ :=
      Int.le_floor.mpr (by exact_mod_cast h)
    omega
  · intro h
    have hz : (i : ℤ) ≤ ⌊max (hi - center) (center - lo) / sp⌋ := by omega
    have := Int.le_floor.mp hz
    exact_mod_cast this

/-- With fuel covering the remaining indices, the fuelled loop enumerates
exactly the indices `i, i+1, …, axisBound`. -/
theorem axisTicksAux_eq (center lo hi sp : ℚ) (maj : ℤ) (hsp : 0 < sp) :
    ∀ fuel i : ℕ, 1 ≤ i → axisBound center lo hi sp + 1 ≤ fuel + i →
      axisTicksAux center lo hi sp maj fuel i =
        (List.range' i (axisBound center lo hi sp + 1 - i)).flatMap
          (axisTickBody center lo hi sp maj) := by
  intro fuel
  induction fuel with
  | zero =>
    intro i h1 hle
    have hz : axisBound center lo hi sp + 1 - i = 0 := by omega
    simp [axisTicksAux, hz]
  | succ fuel ih =>
    intro i h1 hle
    by_cases hc : center + i * sp ≤ hi ∨ lo ≤ center - i * sp
    · have hiN : i ≤ axisBound center lo hi sp :=
        (axisCond_iff center lo hi sp hsp i h1).mp hc
      have hlen : axisBound center lo hi sp + 1 - i =
          (axisBound center lo hi sp + 1 - (i + 1)) + 1 := by omega
      simp only [axisTicksAux, if_pos hc]
      rw [ih (i + 1) (by omega) (by omega), hlen, List.range'_succ]
      simp
    · have hiN : ¬ i ≤ axisBound center lo hi sp :=
        fun hh => hc ((axisCond_iff center lo hi sp hsp i h1).mpr hh)
      have hz : axisBound center lo hi sp + 1 - i = 0 := by omega
      simp [axisTicksAux, if_neg hc, hz]

/-- The loop body agrees with the spec's "whichever falls in `[lo, hi]`"
filter. -/
theorem axisTickBody_eq_filter (center lo hi sp : ℚ) (maj : ℤ) (i : ℕ) :
    axisTickBody center lo hi sp maj i =
      [center + (i : ℚ) * sp, center - (i : ℚ) * sp].filterMap fun p =>
        if lo ≤ p ∧ p ≤ hi then
          some (p, decide (0 < maj) && decide ((i : ℤ) % maj = 0))
        else none := by
  simp only [axisTickBody, List.filterMap]
  split_ifs <;> simp_all

/-- For positive spacing the source loop equals the spec enumeration. -/
theorem axisTicks_eq_spec (center lo hi sp : ℚ) (maj : ℤ) (hsp : 0 < sp) :
    axisTicks center lo hi sp maj = axisTicksSpec center lo hi sp maj := by
  unfold axisTicks axisTicksSpec
  rw [axisTicksAux_eq center lo hi sp maj hsp (axisBound center lo hi sp + 1) 1
    (by omega) (by omega)]
  have hr : List.range' 1 (axisBound center lo hi sp + 1 - 1) =
      (List.range (axisBound center lo hi sp)).map (· + 1) := by
    rw [Nat.add_sub_cancel, List.range'_eq_map_range]
    simp [Nat.add_comm]
  rw [hr, List.flatMap_map]
  simp only [axisTickBody_eq_filter]

/-! ## Claim theorems: axis ticks (C4) -/

/-- C4: for every spacing ≥ 5 the axis-tick loop enumerates the indices
`i = 1, 2, …` exactly while `center + i*spacing ≤ hi` or
`center - i*spacing ≥ lo` (equivalently `i ≤ axisBound`), emitting whichever
of `center ± i*spacing` falls in `[lo, hi]`, major iff `major_every > 0` and
`i % major_every == 0`; in particular for spacing 10, `major_every` 5,
center 0 and range `[-25, 25]` it emits exactly the minor ticks at ±10 and
±20, with no major tick in range. -/
theorem axisTicks_follow_spec :
    (∀ (center lo hi sp : ℚ) (maj : ℤ), 5 ≤ sp →
      (∀ i : ℕ, 1 ≤ i →
        ((center + i * sp ≤ hi ∨ lo ≤ center - i * sp) ↔
          i ≤ axisBound center lo hi sp)) ∧
      axisTicks center lo hi sp maj = axisTicksSpec center lo hi sp maj) ∧
    axisTicks 0 (-25) 25 10 5 = [(10, false), (-10, false), (20, false), (-20, false)] ∧
    ∀ p ∈ axisTicks 0 (-25) 25 10 5, p.2 = false := by
  have hscen : axisTicks 0 (-25) 25 10 5 =
      [(10, false), (-10, false), (20, false), (-20, false)] := by
    rw [axisTicks_eq_spec 0 (-25) 25 10 5 (by norm_num)]
    have hb : axisBound 0 (-25) 25 10 = 2 := by
      unfold axisBound
      norm_num
      rfl
    simp only [axisTicksSpec, hb]
    norm_num [List.range_succ, List.filterMap_cons]
  refine ⟨fun center lo hi sp maj h5 => ?_, hscen, ?_⟩
  · have hsp : (0 : ℚ) < sp := lt_of_lt_of_le (by norm_num) h5
    exact ⟨fun i h1 => axisCond_iff center lo hi sp hsp i h1,
      axisTicks_eq_spec center lo hi sp maj hsp⟩
  · rw [hscen]
    intro p hp
    simp only [List.mem_cons, List.not_mem_nil, or_false] at hp
    rcases hp with rfl | rfl | rfl | rfl <;> rfl

/-- C4 witness: the loop-condition characterisation instantiated at the
scenario parameters (spacing 10 ≥ 5): index 2 satisfies the loop condition,
index 3 does not. -/
theorem axisTicks_follow_spec_witness :
    (5 : ℚ) ≤ 10 ∧
    (((0 : ℚ) + (2 : ℕ) * 10 ≤ 25 ∨ (-25 : ℚ) ≤ 0 - (2 : ℕ) * 10) ↔
      (2 : ℕ) ≤ axisBound 0 (-25) 25 10) ∧
    (((0 : ℚ) + (3 : ℕ) * 10 ≤ 25 ∨ (-25 : ℚ) ≤ 0 - (3 : ℕ) * 10) ↔
      (3 : ℕ) ≤ axisBound 0 (-25) 25 10) ∧
    axisTicks 0 (-25) 25 10 5 = axisTicksSpec 0 (-25) 25 10 5 := by
  have H := (axisTicks_follow_spec.1 0 (-25) 25 (10 : ℚ) 5 (by norm_num))
  exact ⟨by norm_num, H.1 2 (by norm_num), H.1 3 (by norm_num), H.2⟩

/-! ## Measurement-mode rendering

From `_draw_measurement` in `src/linux/crosshair_overlay.py` lines 389–478
(identically `src/windows/crosshair_overlay.py` lines 805–910, modulo the
virtual-screen offset).  Colour/opacity and font selection are carried along
in the source purely as pen state and do not affect which primitives are
emitted, so the embedded draw commands record geometry only; text strings
are recorded structurally (`MLabel.dist d dxi dyi` denotes the formatted
string `"%.1f px (%d, %d)" % (d, dxi, dyi)`, `MLabel.tickLbl t` the string
`"%d" % t`).  `math.hypot` and `cr.text_extents` are external calls passed
in as parameters `h` and `tex`. -/

/-- The settings fields `_draw_measurement` reads. -/
structure MSettings : Type where
  lineWidth : ℚ
  tickEnabled : Bool
  tickSpacing : ℚ
  tickMajorEvery : ℤ
  tickMinorLength : ℚ
  tickMajorLength : ℚ
  tickLabels : Bool
  tickLabelSize : ℚ

/-- A text label drawn by `_draw_measurement`, recorded structurally. -/
inductive MLabel : Type where
  | dist (d : ℚ) (dxi dyi : ℤ) : MLabel
  | tickLbl (t : ℤ) : MLabel
deriving DecidableEq

/-- Geometric draw primitives emitted by the renderer. -/
inductive DrawCmd : Type where
  | line (x1 y1 x2 y2 width : ℚ) : DrawCmd
  | fillCircle (cx cy r : ℚ) : DrawCmd
  | fillRect (x y w hgt : ℚ) : DrawCmd
  | text (l : MLabel) (x y : ℚ) : DrawCmd
deriving DecidableEq

/-- `_draw_measurement`: nothing when an endpoint is unset; otherwise the
segment line, an endpoint dot of radius `max(3, line_width*1.5)` at each end,
then — only when `hypot(dx, dy) ≥ 1` — ruler ticks (when enabled with spacing
≥ 5, with per-major-tick labels when enabled) and the distance label
`"%.1f px (%d, %d)" % (dist, int(dx), int(-dy))` over a padded background
rectangle anchored above the segment midpoint. -/
def renderMeasurement (h : ℚ → ℚ → ℚ) (tex : MLabel → ℚ × ℚ) (cfg : MSettings)
    (mstart mend : Option (ℚ × ℚ)) : List DrawCmd :=
  match mstart, mend with
  | some (x1, y1), some (x2, y2) =>
    let lineCmd := DrawCmd.line x1 y1 x2 y2 cfg.lineWidth
    let dotR := max 3 (cfg.lineWidth * 1.5)
    let dots := [DrawCmd.fillCircle x1 y1 dotR, DrawCmd.fillCircle x2 y2 dotR]
    let dx := x2 - x1
    let dy := y2 - y1
    let dist := h dx dy
    if dist < 1 then lineCmd :: dots
    else
      let ticks :=
        if cfg.tickEnabled = true ∧ 5 ≤ cfg.tickSpacing then
          let ux := dx / dist
          let uy := dy / dist
          let px := -uy
          let py := ux
          (measurementTicks dist cfg.tickSpacing cfg.tickMajorEvery).flatMap fun tm =>
            let t := tm.1
            let m := tm.2
            let tx := x1 + ux * t
            let ty := y1 + uy * t
            let len := if m then cfg.tickMajorLength else cfg.tickMinorLength
            let half := len / 2
            DrawCmd.line (tx - px * half) (ty - py * half)
                (tx + px * half) (ty + py * half) (max 1 (cfg.lineWidth * 0.6)) ::
              (if m = true ∧ cfg.tickLabels = true then
                let lbl := MLabel.tickLbl (pyInt t)
                let wh := tex lbl
                let off := half + 2 + wh.2 / 2
                [DrawCmd.text lbl (tx + px * off - wh.1 / 2) (ty + py * off + wh.2 / 2)]
              else [])
        else []
      let lbl := MLabel.dist dist (pyInt dx) (pyInt (-dy))
      let wh := tex lbl
      let midX := (x1 + x2) / 2
      let midY := (y1 + y2) / 2
      lineCmd :: dots ++ ticks ++
        [DrawCmd.fillRect (midX - wh.1 / 2 - 4) (midY - 12 - wh.2 - 4)
            (wh.1 + 8) (wh.2 + 8),
          DrawCmd.text lbl (midX - wh.1 / 2) (midY - 12)]
  | _, _ => []

/-- A sample behaviour of `math.hypot`, exact on axis-aligned inputs (used
only to instantiate closed statements). -/
def sampleHypot : ℚ → ℚ → ℚ := fun dx dy =>
  if dy = 0 then |dx| else if dx = 0 then |dy| else 0

/-- A sample behaviour of `cr.text_extents`. -/
def sampleExtents : MLabel → ℚ × ℚ := fun _ => (50, 10)

/-- The measurement-relevant fields of the built-in defaults. -/
def defaultMSettings : MSettings :=
  { lineWidth := 1, tickEnabled := false, tickSpacing := 10, tickMajorEvery := 5,
    tickMinorLength := 3, tickMajorLength := 6, tickLabels := false,
    tickLabelSize := 9 }

/-! ## Claim theorems: measurement rendering (C7) -/

/-- C7 counterexample: with both endpoints set but equal (the state produced
by every button-press, since it sets `start = end`), the render emits only
the line and the two endpoint markers — no distance label and no background
rectangle — because of the `dist < 1` early return.  This refutes "whenever
both measurement endpoints are set, render emits … a distance label". -/
theorem render_zero_length_omits_label :
    renderMeasurement sampleHypot sampleExtents defaultMSettings
        (some (0, 0)) (some (0, 0)) =
      [DrawCmd.line 0 0 0 0 1, DrawCmd.fillCircle 0 0 3, DrawCmd.fillCircle 0 0 3] ∧
    (∀ l x y, DrawCmd.text l x y ∉
      renderMeasurement sampleHypot sampleExtents defaultMSettings
        (some (0, 0)) (some (0, 0))) ∧
    (∀ x y w hgt, DrawCmd.fillRect x y w hgt ∉
      renderMeasurement sampleHypot sampleExtents defaultMSettings
        (some (0, 0)) (some (0, 0))) := by
  have hout : renderMeasurement sampleHypot sampleExtents defaultMSettings
      (some (0, 0)) (some (0, 0)) =
      [DrawCmd.line 0 0 0 0 1, DrawCmd.fillCircle 0 0 3, DrawCmd.fillCircle 0 0 3] := by
    rw [renderMeasurement]
    norm_num [sampleHypot, defaultMSettings, max_def]
  refine ⟨hout, ?_, ?_⟩
  · intro l x y
    rw [hout]
    simp
  · intro x y w hgt
    rw [hout]
    simp

/-- C7 amended: whenever both endpoints are set, the render emits —
unconditionally — the line between them and an endpoint marker circle of
radius `max(3, line_width*1.5)` at each end; whenever additionally
`dist = hypot(dx, dy) < 1`, the output is exactly those three primitives, so
the label and its rectangle are omitted; and whenever `dist ≥ 1` it also
emits the distance label `"%.1f px (%d, %d)" % (dist, int(dx), int(-dy))` —
vertical delta negated — and its background rectangle at the segment
midpoint. -/
theorem render_measurement_contents (h : ℚ → ℚ → ℚ) (tex : MLabel → ℚ × ℚ)
    (cfg : MSettings) (x1 y1 x2 y2 : ℚ) :
    (DrawCmd.line x1 y1 x2 y2 cfg.lineWidth ∈
        renderMeasurement h tex cfg (some (x1, y1)) (some (x2, y2)) ∧
      DrawCmd.fillCircle x1 y1 (max 3 (cfg.lineWidth * 1.5)) ∈
        renderMeasurement h tex cfg (some (x1, y1)) (some (x2, y2)) ∧
      DrawCmd.fillCircle x2 y2 (max 3 (cfg.lineWidth * 1.5)) ∈
        renderMeasurement h tex cfg (some (x1, y1)) (some (x2, y2))) ∧
    (h (x2 - x1) (y2 - y1) < 1 →
      renderMeasurement h tex cfg (some (x1, y1)) (some (x2, y2)) =
        [DrawCmd.line x1 y1 x2 y2 cfg.lineWidth,
          DrawCmd.fillCircle x1 y1 (max 3 (cfg.lineWidth * 1.5)),
          DrawCmd.fillCircle x2 y2 (max 3 (cfg.lineWidth * 1.5))]) ∧
    (1 ≤ h (x2 - x1) (y2 - y1) →
      DrawCmd.fillRect
          ((x1 + x2) / 2 - (tex (MLabel.dist (h (x2 - x1) (y2 - y1))
            (pyInt (x2 - x1)) (pyInt (-(y2 - y1))))).1 / 2 - 4)
          ((y1 + y2) / 2 - 12 - (tex (MLabel.dist (h (x2 - x1) (y2 - y1))
            (pyInt (x2 - x1)) (pyInt (-(y2 - y1))))).2 - 4)
          ((tex (MLabel.dist (h (x2 - x1) (y2 - y1))
            (pyInt (x2 - x1)) (pyInt (-(y2 - y1))))).1 + 8)
          ((tex (MLabel.dist (h (x2 - x1) (y2 - y1))
            (pyInt (x2 - x1)) (pyInt (-(y2 - y1))))).2 + 8) ∈
        renderMeasurement h tex cfg (some (x1, y1)) (some (x2, y2)) ∧
      DrawCmd.text
          (MLabel.dist (h (x2 - x1) (y2 - y1))
            (pyInt (x2 - x1)) (pyInt (-(y2 - y1))))
          ((x1 + x2) / 2 - (tex (MLabel.dist (h (x2 - x1) (y2 - y1))
            (pyInt (x2 - x1)) (pyInt (-(y2 - y1))))).1 / 2)
          ((y1 + y2) / 2 - 12) ∈
        renderMeasurement h tex cfg (some (x1, y1)) (some (x2, y2))) := by
  rw [renderMeasurement]
  by_cases hlt : h (x2 - x1) (y2 - y1) < 1
  · rw [if_pos hlt]
    refine ⟨⟨?_, ?_, ?_⟩, fun _ => rfl, fun hge => absurd hge (not_le.mpr hlt)⟩ <;>
      simp
  · rw [if_neg hlt]
    refine ⟨⟨?_, ?_, ?_⟩, fun hlt2 => absurd hlt2 hlt, fun _ => ⟨?_, ?_⟩⟩ <;> simp

/-- C7 amended, witness: for the degenerate segment (0,0)–(0,0) (where
`hypot(0, 0) = 0 < 1`) the output is exactly the line and the two endpoint
markers, and for the segment (0,0)–(100,0) (where `hypot(100, 0) = 100 ≥ 1`)
the render also contains the distance label. -/
theorem render_measurement_contents_witness :
    (sampleHypot (0 - 0) (0 - 0) < 1 ∧
      renderMeasurement sampleHypot sampleExtents defaultMSettings
          (some (0, 0)) (some (0, 0)) =
        [DrawCmd.line 0 0 0 0 defaultMSettings.lineWidth,
          DrawCmd.fillCircle 0 0 (max 3 (defaultMSettings.lineWidth * 1.5)),
          DrawCmd.fillCircle 0 0 (max 3 (defaultMSettings.lineWidth * 1.5))]) ∧
    (1 ≤ sampleHypot (100 - 0) (0 - 0) ∧
      DrawCmd.line 0 0 100 0 defaultMSettings.lineWidth ∈
        renderMeasurement sampleHypot sampleExtents defaultMSettings
          (some (0, 0)) (some (100, 0)) ∧
      DrawCmd.text
          (MLabel.dist (sampleHypot (100 - 0) (0 - 0))
            (pyInt (100 - 0)) (pyInt (-(0 - 0))))
          ((0 + 100) / 2 - (sampleExtents (MLabel.dist (sampleHypot (100 - 0) (0 - 0))
            (pyInt (100 - 0)) (pyInt (-(0 - 0))))).1 / 2)
          ((0 + 0) / 2 - 12) ∈
        renderMeasurement sampleHypot sampleExtents defaultMSettings
          (some (0, 0)) (some (100, 0))) := by
  have hlt : sampleHypot ((0 : ℚ) - 0) ((0 : ℚ) - 0) < 1 := by
    norm_num [sampleHypot]
  have hd : (1 : ℚ) ≤ sampleHypot (100 - 0) (0 - 0) := by
    norm_num [sampleHypot]
  refine ⟨⟨hlt, ?_⟩, hd, ?_, ?_⟩
  · exact (render_measurement_contents sampleHypot sampleExtents defaultMSettings
      0 0 0 0).2.1 hlt
  · exact (render_measurement_contents sampleHypot sampleExtents defaultMSettings
      0 0 100 0).1.1
  · exact ((render_measurement_contents sampleHypot sampleExtents defaultMSettings
      0 0 100 0).2.2 hd).2

end Crosshair
